import Mathlib

/-!
Shallow embedding of the GPS-EXIF batch transfer engine
(`src/libs/main.py` of the EXIF-Clone repository).

Python dicts of EXIF tags become association lists with dict update
semantics (`dictGet` / `dictSet`); the piexif tag-mapping dict becomes the
`ExifDict` structure whose group fields are `Option`al (a Python dict may
lack a group key); the filesystem becomes an explicit `World` value mapping
paths to `File` records that carry the outcome of each external capability
(`piexif.load` on the path, `PIL.Image.open`, the persist step, and
`shutil.copy2`).  Fallible Python code becomes `Except String`; the
possible per-file I/O failures are data of the world, so the engine itself
is a pure function from a world to a result and an updated world.
-/

namespace ExifClone

/-- A Python dict of EXIF tags: association list, insertion ordered. -/
abbrev Tags := List (Nat × String)

/-- Python `d.get(k)`: first binding wins (keys are unique in real dicts). -/
def dictGet : Tags → Nat → Option String
  | [], _ => none
  | (k, v) :: rest, t => if t = k then some v else dictGet rest t

/-- Python `d[k] = v`: replace in place if the key exists, else append. -/
def dictSet : Tags → Nat → String → Tags
  | [], k, v => [(k, v)]
  | (k', v') :: rest, k, v =>
      if k = k' then (k, v) :: rest else (k', v') :: dictSet rest k v

/-- The piexif tag-mapping dict: group keys `0th`, `Exif`, `GPS`, `1st`,
`thumbnail`.  A group field is `none` when the Python dict lacks that key. -/
structure ExifDict where
  zeroth : Option Tags := none
  Exif : Option Tags := none
  GPS : Option Tags := none
  first : Option Tags := none
  thumbnail : Option String := none
deriving DecidableEq, Repr

instance {α β : Type} [DecidableEq α] [DecidableEq β] : DecidableEq (Except α β) := fun a b =>
  match a, b with
  | .error x, .error y =>
      if h : x = y then isTrue (by rw [h]) else isFalse (by intro hc; cases hc; exact h rfl)
  | .error _, .ok _ => isFalse (by intro hc; cases hc)
  | .ok _, .error _ => isFalse (by intro hc; cases hc)
  | .ok x, .ok y =>
      if h : x = y then isTrue (by rw [h]) else isFalse (by intro hc; cases hc; exact h rfl)

/-- The result of `PIL.Image.open`: `exifBlob = none` models
`img.info.get("exif", b"")` returning the empty byte string; `some r` models
a present blob whose `piexif.load` parse outcome is `r`. -/
structure HeicImage where
  exifBlob : Option (Except String ExifDict)
deriving DecidableEq, Repr

/-- One file of the modelled filesystem.  `exifLoad` is what
`piexif.load(path)` yields on this file; `imageOpen` what
`PIL.Image.open(path)` yields; `writeErr`, when present, is the exception
raised by the persist step (`piexif.dump`/`piexif.insert`/`img.save`);
`copyErr`, when present, is the exception raised by `shutil.copy2` when
copying from this file. -/
structure File where
  exifLoad : Except String ExifDict
  imageOpen : Except String HeicImage
  writeErr : Option String := none
  copyErr : Option String := none
deriving DecidableEq, Repr

/-- The filesystem plus the module-level `HEIF_SUPPORTED` flag. -/
structure World where
  files : List (String × File)
  heif_supported : Bool := true
deriving DecidableEq, Repr

def getEntry : List (String × File) → String → Option File
  | [], _ => none
  | (q, f) :: rest, p => if p = q then some f else getEntry rest p

def setEntry : List (String × File) → String → File → List (String × File)
  | [], p, f => [(p, f)]
  | (q, g) :: rest, p, f =>
      if p = q then (p, f) :: rest else (q, g) :: setEntry rest p f

def getFile (w : World) (p : String) : Option File := getEntry w.files p

def setFile (w : World) (p : String) (f : File) : World :=
  { w with files := setEntry w.files p f }

/-- `piexif.load(file_path)` on a path: missing file raises. -/
def piexifLoadPath (w : World) (p : String) : Except String ExifDict :=
  match getFile w p with
  | none => .error ("No such file or directory: " ++ p)
  | some f => f.exifLoad

/-- `PIL.Image.open(file_path)`: missing file raises. -/
def pilImageOpen (w : World) (p : String) : Except String HeicImage :=
  match getFile w p with
  | none => .error ("No such file or directory: " ++ p)
  | some f => f.imageOpen

/-- `os.path.basename`: the suffix after the last path separator. -/
def basenameList (cs : List Char) : List Char :=
  cs.foldl (fun acc c => if c = '/' then [] else acc ++ [c]) []

def basename (p : String) : String := String.mk (basenameList p.toList)

/-- Split a character list at its last dot: `(before, dot-and-after)`. -/
def lastDotSplit : List Char → Option (List Char × List Char)
  | [] => none
  | c :: rest =>
    match lastDotSplit rest with
    | some (b, e) => some (c :: b, e)
    | none => if c = '.' then some ([], c :: rest) else none

/-- `os.path.splitext(p)[1].lower()`: the extension of the basename, last
dot included, lower-cased; a basename whose every pre-dot character is a
dot has no extension. -/
def extOf (p : String) : String :=
  let b := basenameList p.toList
  match lastDotSplit b with
  | some (before, e) =>
      if before.any (fun c => c != '.') then String.mk (e.map Char.toLower) else ""
  | none => ""

/-- `_is_heic`: extension is `.heic` or `.heif`, case-insensitive. -/
def _is_heic (file_path : String) : Bool :=
  let ext := extOf file_path
  ext = ".heic" || ext = ".heif"

/-- `{copy_date, overwrite_gps}` with the `.get` defaults of the source. -/
structure Options where
  copy_date : Bool := false
  overwrite_gps : Bool := true
deriving DecidableEq, Repr

/-- `_should_skip_file`: false when overwrite is enabled; otherwise probe
the target's existing tags (per classified format) and skip iff a non-empty
GPS group is present; every probe failure resolves to false. -/
def _should_skip_file (w : World) (file_path : String) (options : Options) : Bool :=
  if options.overwrite_gps then
    false
  else
    match
      (if _is_heic file_path then
        match pilImageOpen w file_path with
        | .error e => Except.error e
        | .ok img =>
          match img.exifBlob with
          | none => Except.ok none
          | some r => r.map some
      else
        (piexifLoadPath w file_path).map some) with
    | .error _ => false
    | .ok none => false
    | .ok (some exif_dict) => !(exif_dict.GPS.getD []).isEmpty

/-- `_create_backup`: copy the file byte-for-byte to `{path}.backup`,
wrapping any `shutil.copy2` failure in a `Failed to create backup` error. -/
def _create_backup (w : World) (file_path : String) : Except String World :=
  let backup_path := file_path ++ ".backup"
  match getFile w file_path with
  | none => .error ("Failed to create backup for " ++ file_path ++ ": No such file or directory")
  | some f =>
    match f.copyErr with
    | some e => .error ("Failed to create backup for " ++ file_path ++ ": " ++ e)
    | none => .ok (setFile w backup_path f)

/-- `_load_exif_from_heic`: open the image, then `piexif.load` its attached
blob; an empty blob makes `piexif.load(b"")` raise. -/
def _load_exif_from_heic (w : World) (file_path : String) : Except String ExifDict := do
  let img ← pilImageOpen w file_path
  match img.exifBlob with
  | none => .error "Given data is neither JPEG nor TIFF"
  | some r => r

/-- The five Exif-IFD date slots read and written by the source:
`DateTimeOriginal`, `DateTimeDigitized`, `OffsetTime`, `OffsetTimeOriginal`,
`OffsetTimeDigitized`. -/
def dateExifTags : List Nat := [36867, 36868, 36880, 36881, 36882]

/-- The full date tag-slot set of the source: the five Exif-IFD slots plus
the 0th-IFD `DateTime` (306). -/
def dateTagSlots : List Nat := [36867, 36868, 36880, 36881, 36882, 306]

/-- One iteration of the extraction loops: copy `tag` from `src` into `acc`
when present. -/
def addIfPresent (src : Tags) (tag : Nat) (acc : Tags) : Tags :=
  match dictGet src tag with
  | some v => dictSet acc tag v
  | none => acc

/-- `_extract_date_data`: read the date slots (timestamps then offsets from
the Exif IFD, then `DateTime` from the 0th IFD); `None` when nothing was
found. -/
def _extract_date_data (exif_dict : ExifDict) : Option Tags :=
  let date_data : Tags := []
  let date_data :=
    match exif_dict.Exif with
    | none => date_data
    | some ex =>
        addIfPresent ex 36882 (addIfPresent ex 36881 (addIfPresent ex 36880
          (addIfPresent ex 36868 (addIfPresent ex 36867 date_data))))
  let date_data :=
    match exif_dict.zeroth with
    | none => date_data
    | some z => addIfPresent z 306 date_data
  if date_data.isEmpty then none else some date_data

/-- The body of the `for tag, value in date_data.items()` loop of
`_apply_date_data`: `Exif`-IFD date slots to the `Exif` group, 306 to the
`0th` group, anything else dropped. -/
def routeDateTag (d : ExifDict) (tv : Nat × String) : ExifDict :=
  if dateExifTags.contains tv.1 then
    { d with Exif := some (dictSet (d.Exif.getD []) tv.1 tv.2) }
  else if tv.1 = 306 then
    { d with zeroth := some (dictSet (d.zeroth.getD []) tv.1 tv.2) }
  else d

/-- `_apply_date_data`: no-op on a falsy mapping; otherwise ensure the
`Exif` and `0th` groups exist, then route each tag of `date_data` to its
group. -/
def _apply_date_data (exif_dict : ExifDict) (date_data : Tags) : ExifDict :=
  if date_data.isEmpty then exif_dict
  else
    let exif_dict := { exif_dict with Exif := some (exif_dict.Exif.getD []) }
    let exif_dict := { exif_dict with zeroth := some (exif_dict.zeroth.getD []) }
    date_data.foldl routeDateTag exif_dict

/-- The writers' `if date_data: _apply_date_data(...)`: Python truthiness
of the optional dict. -/
def applyDateStep (exif_dict : ExifDict) (date_data : Option Tags) : ExifDict :=
  match date_data with
  | none => exif_dict
  | some dd => if dd.isEmpty then exif_dict else _apply_date_data exif_dict dd

/-- The persist step of a writer (`piexif.dump` + `piexif.insert`, or
`img.save`): the file's recorded persist failure, if any. -/
def writePersistErr (w : World) (p : String) : Option String :=
  match getFile w p with
  | none => none
  | some f => f.writeErr

/-- `_write_exif_to_jpeg`: load the target's tags, re-check the overwrite
policy against them (skip without writing when blocked), merge GPS and
optionally dates, persist.  `true` means skipped, `false` written. -/
def _write_exif_to_jpeg (w : World) (file_path : String) (gps_data : Tags)
    (date_data : Option Tags) (options : Options) : Except String (Bool × World) := do
  let target_exif ← piexifLoadPath w file_path
  if !options.overwrite_gps && !(target_exif.GPS.getD []).isEmpty then
    return (true, w)
  let target_exif := { target_exif with GPS := some gps_data }
  let target_exif := applyDateStep target_exif date_data
  match writePersistErr w file_path with
  | some e => .error e
  | none =>
    match getFile w file_path with
    | none => .error ("No such file or directory: " ++ file_path)
    | some f => .ok (false, setFile w file_path { f with exifLoad := .ok target_exif })

/-- The fresh dict the HEIC writer builds when the image has no blob. -/
def freshExifDict : ExifDict :=
  { zeroth := some [], Exif := some [], GPS := some [], first := some [], thumbnail := none }

/-- `_write_exif_to_heic`: open the image, parse or freshly create its tag
dict, re-check the overwrite policy (skip without writing when blocked),
merge GPS and optionally dates, save.  `true` means skipped. -/
def _write_exif_to_heic (w : World) (file_path : String) (gps_data : Tags)
    (date_data : Option Tags) (options : Options) : Except String (Bool × World) := do
  let img ← pilImageOpen w file_path
  let exif_dict ←
    match img.exifBlob with
    | some r => r
    | none => pure freshExifDict
  if !options.overwrite_gps && !(exif_dict.GPS.getD []).isEmpty then
    return (true, w)
  let exif_dict := { exif_dict with GPS := some gps_data }
  let exif_dict := applyDateStep exif_dict date_data
  match writePersistErr w file_path with
  | some e => .error e
  | none =>
    match getFile w file_path with
    | none => .error ("No such file or directory: " ++ file_path)
    | some f =>
        .ok (false, setFile w file_path { f with imageOpen := .ok { exifBlob := some (.ok exif_dict) } })

/-- The progress callback: may have side effects only through its result;
`.error` models a raised exception. -/
abbrev Callback := Option (Nat → Nat → String → Except String Unit)

def callCb (cb : Callback) (current total : Nat) (status : String) : Except String Unit :=
  match cb with
  | none => .ok ()
  | some f => f current total status

/-- How one target is settled by the loop body. -/
inductive Outcome
  | skip
  | succ
  | fail (file : String) (error : String)
deriving DecidableEq, Repr

/-- The accumulating `results` counters of one batch call. -/
structure Counters where
  success_count : Nat := 0
  skipped : Nat := 0
  failed : List (String × String) := []
deriving DecidableEq, Repr

def record (c : Counters) : Outcome → Counters
  | .skip => { c with skipped := c.skipped + 1 }
  | .succ => { c with success_count := c.success_count + 1 }
  | .fail f e => { c with failed := c.failed ++ [(f, e)] }

/-- The `if _is_heic(target_path): ... else: ...` writer dispatch of the
loop body. -/
def writeTarget (w : World) (target_path : String) (gps_data : Tags)
    (date_data : Option Tags) (options : Options) : Except String (Bool × World) :=
  if _is_heic target_path then
    _write_exif_to_heic w target_path gps_data date_data options
  else
    _write_exif_to_jpeg w target_path gps_data date_data options

/-- The body of one iteration of the per-target loop: progress emission,
skip probe, backup, format dispatch to a writer — all inside the
per-target `try`, whose `except` folds any raise into a `fail` outcome. -/
def processTarget (progress_callback : Callback) (options : Options) (gps_data : Tags)
    (date_data : Option Tags) (total idx : Nat) (w : World) (target_path : String) :
    Outcome × World :=
  match callCb progress_callback idx total ("(" ++ basename target_path ++ ")") with
  | .error e => (.fail target_path e, w)
  | .ok _ =>
    if _should_skip_file w target_path options then (.skip, w)
    else
      match _create_backup w target_path with
      | .error e => (.fail target_path e, w)
      | .ok w1 =>
        match writeTarget w1 target_path gps_data date_data options with
        | .error e => (.fail target_path e, w1)
        | .ok (true, w2) => (.skip, w2)
        | .ok (false, w2) => (.succ, w2)

/-- The `for idx, target_path in enumerate(target_paths)` loop. -/
def runLoop (progress_callback : Callback) (options : Options) (gps_data : Tags)
    (date_data : Option Tags) (total : Nat) :
    Nat → Counters → World → List String → Counters × World
  | _, c, w, [] => (c, w)
  | idx, c, w, t :: ts =>
    let r := processTarget progress_callback options gps_data date_data total idx w t
    runLoop progress_callback options gps_data date_data total (idx + 1) (record c r.1) r.2 ts

/-- The `results["message"]` construction of the source, literally: the
first branch's equality test, the `msg_parts` assembly, the overwritten
first assignment of the `success_count > 0` branch, and the two terminal
branches. -/
def buildMessage (success_count skipped : Nat) (failed : List (String × String))
    (total : Nat) : String :=
  let total_attempted : Int := (total : Int) - (skipped : Int)
  if (success_count : Int) = total_attempted ∧ skipped = 0 then
    "Successfully processed " ++ toString success_count ++ " file(s)"
  else if success_count > 0 then
    let msg_parts := ["Processed " ++ toString success_count ++ "/" ++ toString total ++ " files"]
    let msg_parts := if skipped > 0 then msg_parts ++ [toString skipped ++ " skipped"] else msg_parts
    let msg_parts :=
      if failed.length > 0 then msg_parts ++ [toString failed.length ++ " failed"] else msg_parts
    let message :=
      if msg_parts.length > 1 then
        " (" ++ String.intercalate ", " msg_parts.tail ++ ")"
      else msg_parts.headD ""
    let message := msg_parts.headD "" ++
      (if msg_parts.length > 1 then " (" ++ String.intercalate ", " msg_parts.tail ++ ")" else "")
    message
  else if skipped = total then
    "All " ++ toString skipped ++ " files skipped (already have GPS data)"
  else
    "Failed to process any files"

/-- The `results` dict returned to the caller. -/
structure BatchResult where
  success_count : Nat
  skipped : Nat
  failed : List (String × String)
  message : String
deriving DecidableEq, Repr

/-- Source loading, per classified format. -/
def loadSource (w : World) (source_path : String) : Except String ExifDict :=
  if _is_heic source_path then _load_exif_from_heic w source_path
  else piexifLoadPath w source_path

def heicSupportMessage : String :=
  "Error: HEIC support not available. Install pillow-heif: pip install pillow-heif"

/-- `transfer_gps_data_batch`: load the source once (three short-circuit
failure exits), extract dates when asked, run the per-target loop, emit the
final progress call (whose raise the outer `except` folds into an
`Error loading source:` message, counters kept), compose the message. -/
def transfer_gps_data_batch (w : World) (source_path : String) (target_paths : List String)
    (options : Options) (progress_callback : Callback) : BatchResult × World :=
  if _is_heic source_path && !w.heif_supported then
    ({ success_count := 0, skipped := 0, failed := [], message := heicSupportMessage }, w)
  else
    match loadSource w source_path with
    | .error e =>
        ({ success_count := 0, skipped := 0, failed := [],
           message := "Error loading source: " ++ e }, w)
    | .ok source_exif =>
      let gps_data := source_exif.GPS.getD []
      if gps_data.isEmpty then
        ({ success_count := 0, skipped := 0, failed := [],
           message := "Error: Source image has no GPS data!" }, w)
      else
        let date_data := if options.copy_date then _extract_date_data source_exif else none
        let total := target_paths.length
        let r := runLoop progress_callback options gps_data date_data total 0 {} w target_paths
        match callCb progress_callback total total "" with
        | .error e =>
            ({ success_count := r.1.success_count, skipped := r.1.skipped,
               failed := r.1.failed, message := "Error loading source: " ++ e }, r.2)
        | .ok _ =>
            ({ success_count := r.1.success_count, skipped := r.1.skipped,
               failed := r.1.failed,
               message := buildMessage r.1.success_count r.1.skipped r.1.failed total }, r.2)

/-- `transfer_gps_data`: the second public entry point; its body in the
source is line-for-line the body of `transfer_gps_data_batch`. -/
def transfer_gps_data (w : World) (source_path : String) (target_paths : List String)
    (options : Options) (progress_callback : Callback) : BatchResult × World :=
  if _is_heic source_path && !w.heif_supported then
    ({ success_count := 0, skipped := 0, failed := [], message := heicSupportMessage }, w)
  else
    match loadSource w source_path with
    | .error e =>
        ({ success_count := 0, skipped := 0, failed := [],
           message := "Error loading source: " ++ e }, w)
    | .ok source_exif =>
      let gps_data := source_exif.GPS.getD []
      if gps_data.isEmpty then
        ({ success_count := 0, skipped := 0, failed := [],
           message := "Error: Source image has no GPS data!" }, w)
      else
        let date_data := if options.copy_date then _extract_date_data source_exif else none
        let total := target_paths.length
        let r := runLoop progress_callback options gps_data date_data total 0 {} w target_paths
        match callCb progress_callback total total "" with
        | .error e =>
            ({ success_count := r.1.success_count, skipped := r.1.skipped,
               failed := r.1.failed, message := "Error loading source: " ++ e }, r.2)
        | .ok _ =>
            ({ success_count := r.1.success_count, skipped := r.1.skipped,
               failed := r.1.failed,
               message := buildMessage r.1.success_count r.1.skipped r.1.failed total }, r.2)

/-! ### Derived notions used to state the claims -/

/-- Loading a target's tag mapping via the container path matching its
classified format (the probe and the writers both follow this path). -/
def loadTargetDict (w : World) (p : String) : Except String ExifDict :=
  if _is_heic p then _load_exif_from_heic w p else piexifLoadPath w p

/-- The target's existing tag mapping has a non-empty GPS sub-mapping
(failures to load count as `false`). -/
def targetHasGps (w : World) (p : String) : Bool :=
  match loadTargetDict w p with
  | .ok d => !(d.GPS.getD []).isEmpty
  | .error _ => false

/-- The three short-circuit source-loading failures of the engine: HEIC
support compiled out, unreadable source, or no GPS sub-mapping. -/
def sourceLoadFails (w : World) (source_path : String) : Bool :=
  (_is_heic source_path && !w.heif_supported) ||
    (match loadSource w source_path with
     | .error _ => true
     | .ok d => (d.GPS.getD []).isEmpty)

/-- The value a date tag slot carries on a source mapping: slot 306 lives
in the `0th` group, the five others in the `Exif` group. -/
def slotVal (d : ExifDict) (t : Nat) : Option String :=
  if t = 306 then d.zeroth.bind (fun z => dictGet z 306)
  else d.Exif.bind (fun ex => dictGet ex t)

/-- The copy-error recorded at a path, if any. -/
def copyErrAt (w : World) (p : String) : Option String :=
  (getFile w p).bind File.copyErr

/-- Modelled from the spec: the four-branch message composition policy of
§4.8, stated directly (branch conditions, parts listing, comma join). -/
def messagePolicySpec (success_count skipped : Nat) (failed : List (String × String))
    (total : Nat) : String :=
  let attempted : Int := (total : Int) - (skipped : Int)
  if (success_count : Int) = attempted ∧ skipped = 0 then
    "Successfully processed " ++ toString success_count ++ " file(s)"
  else if success_count > 0 then
    let parts :=
      (if skipped > 0 then [toString skipped ++ " skipped"] else []) ++
        (if failed.length > 0 then [toString failed.length ++ " failed"] else [])
    "Processed " ++ (toString success_count ++ ("/" ++ (toString total ++ (" files" ++
      (if parts.isEmpty then "" else " (" ++ String.intercalate ", " parts ++ ")")))))
  else if skipped = total then
    "All " ++ toString skipped ++ " files skipped (already have GPS data)"
  else
    "Failed to process any files"

/-! ### Dictionary lemmas -/

lemma dictGet_dictSet (m : Tags) (k : Nat) (v : String) (t : Nat) :
    dictGet (dictSet m k v) t = if t = k then some v else dictGet m t := by
  induction m with
  | nil => simp [dictSet, dictGet]
  | cons hd tl ih =>
    obtain ⟨k', v'⟩ := hd
    by_cases hk : k = k'
    · subst hk
      by_cases ht : t = k <;> simp [dictSet, dictGet, ht]
    · by_cases ht : t = k'
      · subst ht
        simp [dictSet, dictGet, hk, Ne.symm hk]
      · simp [dictSet, dictGet, hk, ht, ih]

lemma mem_dictSet {m : Tags} {k : Nat} {v : String} {p : Nat × String}
    (h : p ∈ dictSet m k v) : p = (k, v) ∨ p ∈ m := by
  induction m with
  | nil => simpa [dictSet] using h
  | cons hd tl ih =>
    obtain ⟨k', v'⟩ := hd
    by_cases hk : k = k'
    · subst hk
      simp only [dictSet, if_true, eq_self_iff_true, List.mem_cons] at h
      rcases h with h1 | h1
      · exact Or.inl h1
      · exact Or.inr (List.mem_cons_of_mem _ h1)
    · simp only [dictSet, if_neg hk, List.mem_cons] at h
      rcases h with h1 | h1
      · exact Or.inr (by simp [h1])
      · rcases ih h1 with h2 | h2
        · exact Or.inl h2
        · exact Or.inr (List.mem_cons_of_mem _ h2)

lemma dictGet_isSome_of_mem {m : Tags} {p : Nat × String} (h : p ∈ m) :
    (dictGet m p.1).isSome = true := by
  induction m with
  | nil => simp at h
  | cons hd tl ih =>
    obtain ⟨k, v⟩ := hd
    by_cases hk : p.1 = k
    · simp [dictGet, hk]
    · rcases List.mem_cons.mp h with h' | h'
      · exact absurd (congrArg Prod.fst h') hk
      · simpa [dictGet, hk] using ih h'

lemma dictGet_eq_none_of_not_mem_keys {m : Tags} {t : Nat}
    (h : t ∉ m.map Prod.fst) : dictGet m t = none := by
  induction m with
  | nil => simp [dictGet]
  | cons hd tl ih =>
    obtain ⟨k, v⟩ := hd
    simp only [List.map_cons, List.mem_cons] at h
    push_neg at h
    simp [dictGet, h.1, ih h.2]

lemma keys_nodup_dictSet {m : Tags} {k : Nat} {v : String}
    (h : (m.map Prod.fst).Nodup) : ((dictSet m k v).map Prod.fst).Nodup := by
  induction m with
  | nil => simp [dictSet]
  | cons hd tl ih =>
    obtain ⟨k', v'⟩ := hd
    simp only [List.map_cons, List.nodup_cons] at h
    by_cases hk : k = k'
    · subst hk
      simp only [dictSet, if_true, eq_self_iff_true, List.map_cons, List.nodup_cons]
      exact h
    · simp only [dictSet, if_neg hk, List.map_cons, List.nodup_cons]
      refine ⟨?_, ih h.2⟩
      intro hmem
      rcases List.mem_map.mp hmem with ⟨p, hp, hfst⟩
      rcases mem_dictSet hp with h1 | h1
      · exact hk (by rw [← hfst, h1])
      · exact h.1 (hfst ▸ List.mem_map_of_mem Prod.fst h1)

lemma dictGet_addIfPresent (src : Tags) (tag : Nat) (acc : Tags) (t : Nat) :
    dictGet (addIfPresent src tag acc) t =
      if t = tag ∧ (dictGet src tag).isSome then dictGet src tag
      else dictGet acc t := by
  rcases h : dictGet src tag with _ | v
  · rw [addIfPresent, h]
    simp [h]
  · rw [addIfPresent, h, dictGet_dictSet]
    by_cases ht : t = tag <;> simp [ht, h]

lemma mem_addIfPresent {src : Tags} {tag : Nat} {acc : Tags} {p : Nat × String}
    (h : p ∈ addIfPresent src tag acc) : p.1 = tag ∨ p ∈ acc := by
  rcases hg : dictGet src tag with _ | v
  · rw [addIfPresent, hg] at h
    exact Or.inr h
  · rw [addIfPresent, hg] at h
    rcases mem_dictSet h with h1 | h1
    · exact Or.inl (congrArg Prod.fst h1)
    · exact Or.inr h1

lemma keys_nodup_addIfPresent {src : Tags} {tag : Nat} {acc : Tags}
    (h : (acc.map Prod.fst).Nodup) :
    ((addIfPresent src tag acc).map Prod.fst).Nodup := by
  unfold addIfPresent
  rcases dictGet src tag with _ | v
  · exact h
  · exact keys_nodup_dictSet h

/-! ### World lemmas -/

lemma getEntry_setEntry (l : List (String × File)) (p : String) (f : File) (q : String) :
    getEntry (setEntry l p f) q = if q = p then some f else getEntry l q := by
  induction l with
  | nil => by_cases h : q = p <;> simp [setEntry, getEntry, h]
  | cons hd tl ih =>
    obtain ⟨p', f'⟩ := hd
    by_cases hp : p = p'
    · subst hp
      by_cases hq : q = p <;> simp [setEntry, getEntry, hq]
    · by_cases hq : q = p'
      · subst hq
        simp [setEntry, getEntry, hp, Ne.symm hp]
      · simp [setEntry, getEntry, hp, hq, ih]

lemma getFile_setFile (w : World) (p : String) (f : File) (q : String) :
    getFile (setFile w p f) q = if q = p then some f else getFile w q := by
  simp [getFile, setFile, getEntry_setEntry]

lemma backup_path_ne (t : String) : t ++ ".backup" ≠ t := by
  intro h
  have hl := congrArg String.length h
  rw [String.length_append] at hl
  have h7 : (".backup" : String).length = 7 := rfl
  omega

lemma backup_path_inj {a b : String} (h : a ++ ".backup" = b ++ ".backup") : a = b := by
  have hdata : a.data ++ ".backup".data = b.data ++ ".backup".data := by
    have := congrArg String.data h
    simpa [String.data_append] using this
  have hd := List.append_cancel_right hdata
  cases a; cases b; cases hd; rfl

/-! ### Congruence: every per-file operation reads only its own path -/

lemma piexifLoadPath_congr {w w' : World} {p : String}
    (h : getFile w' p = getFile w p) : piexifLoadPath w' p = piexifLoadPath w p := by
  simp [piexifLoadPath, h]

lemma pilImageOpen_congr {w w' : World} {p : String}
    (h : getFile w' p = getFile w p) : pilImageOpen w' p = pilImageOpen w p := by
  simp [pilImageOpen, h]

lemma load_heic_congr {w w' : World} {p : String}
    (h : getFile w' p = getFile w p) :
    _load_exif_from_heic w' p = _load_exif_from_heic w p := by
  simp [_load_exif_from_heic, pilImageOpen_congr h]

lemma loadTargetDict_congr {w w' : World} {p : String}
    (h : getFile w' p = getFile w p) : loadTargetDict w' p = loadTargetDict w p := by
  simp [loadTargetDict, load_heic_congr h, piexifLoadPath_congr h]

lemma shouldSkip_congr {w w' : World} {p : String} {o : Options}
    (h : getFile w' p = getFile w p) :
    _should_skip_file w' p o = _should_skip_file w p o := by
  simp [_should_skip_file, pilImageOpen_congr h, piexifLoadPath_congr h]

lemma writePersistErr_congr {w w' : World} {p : String}
    (h : getFile w' p = getFile w p) : writePersistErr w' p = writePersistErr w p := by
  simp [writePersistErr, h]

/-! ### Structure of the primitive steps -/

lemma piexifLoadPath_ok {w : World} {p : String} {d : ExifDict}
    (h : piexifLoadPath w p = .ok d) :
    ∃ f, getFile w p = some f ∧ f.exifLoad = .ok d := by
  unfold piexifLoadPath at h
  rcases hf : getFile w p with _ | f <;> rw [hf] at h
  · cases h
  · exact ⟨f, rfl, h⟩

lemma pilImageOpen_ok {w : World} {p : String} {img : HeicImage}
    (h : pilImageOpen w p = .ok img) :
    ∃ f, getFile w p = some f ∧ f.imageOpen = .ok img := by
  unfold pilImageOpen at h
  rcases hf : getFile w p with _ | f
  · simp only [hf] at h
    cases h
  · simp only [hf] at h
    exact ⟨f, rfl, h⟩

lemma load_heic_ok {w : World} {p : String} {d : ExifDict}
    (h : _load_exif_from_heic w p = .ok d) :
    ∃ f, getFile w p = some f ∧ f.imageOpen = .ok { exifBlob := some (.ok d) } := by
  unfold _load_exif_from_heic at h
  rcases ho : pilImageOpen w p with e | img
  · simp only [ho, Bind.bind, Except.bind] at h
    cases h
  · simp only [ho, Bind.bind, Except.bind] at h
    obtain ⟨f, hf, hio⟩ := pilImageOpen_ok ho
    refine ⟨f, hf, ?_⟩
    rcases hb : img.exifBlob with _ | r
    · simp only [hb] at h
      cases h
    · simp only [hb] at h
      cases img
      simp only at hb
      rw [hio, hb, h]

lemma create_backup_ok {w : World} {p : String} {w1 : World}
    (h : _create_backup w p = .ok w1) :
    ∃ f, getFile w p = some f ∧ f.copyErr = none ∧ w1 = setFile w (p ++ ".backup") f := by
  unfold _create_backup at h
  rcases hf : getFile w p with _ | f
  · simp only [hf] at h
    cases h
  · simp only [hf] at h
    rcases hc : f.copyErr with _ | e
    · simp only [hc] at h
      cases h
      exact ⟨f, rfl, hc, rfl⟩
    · simp only [hc] at h
      cases h

lemma create_backup_ok_of {w : World} {p : String} {f : File}
    (hf : getFile w p = some f) (hc : f.copyErr = none) :
    _create_backup w p = .ok (setFile w (p ++ ".backup") f) := by
  unfold _create_backup
  simp only [hf, hc]

/-! ### Writer world structure -/

lemma write_jpeg_cases {w : World} {p : String} {gps : Tags} {dd : Option Tags}
    {o : Options} {b : Bool} {w2 : World}
    (h : _write_exif_to_jpeg w p gps dd o = .ok (b, w2)) :
    (b = true ∧ w2 = w) ∨ (b = false ∧ ∃ f, w2 = setFile w p f) := by
  unfold _write_exif_to_jpeg at h
  rcases hl : piexifLoadPath w p with e | d
  · simp only [hl, Bind.bind, Except.bind] at h
    cases h
  · simp only [hl, Bind.bind, Except.bind, pure, Except.pure] at h
    by_cases hc : (!o.overwrite_gps && !(d.GPS.getD []).isEmpty) = true
    · rw [if_pos hc] at h
      cases h
      exact Or.inl ⟨rfl, rfl⟩
    · rw [if_neg hc] at h
      rcases hw : writePersistErr w p with _ | e
      · simp only [hw] at h
        rcases hf : getFile w p with _ | f
        · simp only [hf] at h
          cases h
        · simp only [hf] at h
          cases h
          exact Or.inr ⟨rfl, _, rfl⟩
      · simp only [hw] at h
        cases h

lemma write_heic_cases {w : World} {p : String} {gps : Tags} {dd : Option Tags}
    {o : Options} {b : Bool} {w2 : World}
    (h : _write_exif_to_heic w p gps dd o = .ok (b, w2)) :
    (b = true ∧ w2 = w) ∨ (b = false ∧ ∃ f, w2 = setFile w p f) := by
  unfold _write_exif_to_heic at h
  rcases ho : pilImageOpen w p with e | img
  · simp only [ho, Bind.bind, Except.bind] at h
    cases h
  · simp only [ho, Bind.bind, Except.bind, pure, Except.pure] at h
    rcases hb : img.exifBlob with _ | r
    · simp only [hb] at h
      by_cases hc : (!o.overwrite_gps && !(freshExifDict.GPS.getD []).isEmpty) = true
      · rw [if_pos hc] at h
        cases h
        exact Or.inl ⟨rfl, rfl⟩
      · rw [if_neg hc] at h
        rcases hw : writePersistErr w p with _ | e
        · simp only [hw] at h
          rcases hf : getFile w p with _ | f
          · simp only [hf] at h
            cases h
          · simp only [hf] at h
            cases h
            exact Or.inr ⟨rfl, _, rfl⟩
        · simp only [hw] at h
          cases h
    · rcases hr : r with e | d
      · simp only [hb, hr] at h
        cases h
      · simp only [hb, hr] at h
        by_cases hc : (!o.overwrite_gps && !(d.GPS.getD []).isEmpty) = true
        · rw [if_pos hc] at h
          cases h
          exact Or.inl ⟨rfl, rfl⟩
        · rw [if_neg hc] at h
          rcases hw : writePersistErr w p with _ | e
          · simp only [hw] at h
            rcases hf : getFile w p with _ | f
            · simp only [hf] at h
              cases h
            · simp only [hf] at h
              cases h
              exact Or.inr ⟨rfl, _, rfl⟩
          · simp only [hw] at h
            cases h

lemma writeTarget_cases {w : World} {p : String} {gps : Tags} {dd : Option Tags}
    {o : Options} {b : Bool} {w2 : World}
    (h : writeTarget w p gps dd o = .ok (b, w2)) :
    (b = true ∧ w2 = w) ∨ (b = false ∧ ∃ f, w2 = setFile w p f) := by
  unfold writeTarget at h
  by_cases hh : _is_heic p = true
  · rw [if_pos hh] at h
    exact write_heic_cases h
  · rw [if_neg hh] at h
    exact write_jpeg_cases h

lemma getFile_writeTarget {w : World} {p : String} {gps : Tags} {dd : Option Tags}
    {o : Options} {b : Bool} {w2 : World}
    (h : writeTarget w p gps dd o = .ok (b, w2)) {q : String} (hq : q ≠ p) :
    getFile w2 q = getFile w q := by
  rcases writeTarget_cases h with ⟨_, rfl⟩ | ⟨_, f, rfl⟩
  · rfl
  · rw [getFile_setFile, if_neg hq]

/-! ### Loop-body world structure -/

lemma getFile_processTarget {cb : Callback} {opts : Options} {gps : Tags} {dd : Option Tags}
    {total idx : Nat} {w : World} {t : String} {q : String}
    (hq1 : q ≠ t) (hq2 : q ≠ t ++ ".backup") :
    getFile (processTarget cb opts gps dd total idx w t).2 q = getFile w q := by
  unfold processTarget
  rcases hcb : callCb cb idx total ("(" ++ basename t ++ ")") with e | u
  · simp only [hcb]
  · simp only [hcb]
    by_cases hs : _should_skip_file w t opts = true
    · rw [if_pos hs]
    · rw [if_neg hs]
      rcases hb : _create_backup w t with e | w1
      · simp only [hb]
      · simp only [hb]
        obtain ⟨f, hf, hc, rfl⟩ := create_backup_ok hb
        have h1 : getFile (setFile w (t ++ ".backup") f) q = getFile w q := by
          rw [getFile_setFile, if_neg hq2]
        rcases hw : writeTarget (setFile w (t ++ ".backup") f) t gps dd opts with e | bw
        · simp only [hw]
          exact h1
        · obtain ⟨b, w2⟩ := bw
          cases b <;> simp only [hw] <;> rw [getFile_writeTarget hw hq1, h1]

lemma getFile_runLoop {cb : Callback} {opts : Options} {gps : Tags} {dd : Option Tags}
    {total : Nat} :
    ∀ (ts : List String) (idx : Nat) (c : Counters) (w : World) (q : String),
    (∀ t' ∈ ts, q ≠ t' ∧ q ≠ t' ++ ".backup") →
    getFile (runLoop cb opts gps dd total idx c w ts).2 q = getFile w q
  | [], _, _, _, _, _ => rfl
  | t :: ts, idx, c, w, q, hsep => by
    have ht := hsep t (List.mem_cons_self t ts)
    have hrest : ∀ t' ∈ ts, q ≠ t' ∧ q ≠ t' ++ ".backup" :=
      fun t' ht' => hsep t' (List.mem_cons_of_mem t ht')
    rw [runLoop, getFile_runLoop ts (idx + 1) _ _ q hrest,
      getFile_processTarget ht.1 ht.2]

lemma runLoop_append {cb : Callback} {opts : Options} {gps : Tags} {dd : Option Tags}
    {total : Nat} :
    ∀ (as bs : List String) (idx : Nat) (c : Counters) (w : World),
    runLoop cb opts gps dd total idx c w (as ++ bs) =
      runLoop cb opts gps dd total (idx + as.length)
        (runLoop cb opts gps dd total idx c w as).1
        (runLoop cb opts gps dd total idx c w as).2 bs
  | [], bs, idx, c, w => by simp [runLoop]
  | a :: as, bs, idx, c, w => by
    rw [List.cons_append, runLoop, runLoop_append as bs (idx + 1) _ _, runLoop]
    simp only [List.length_cons]
    congr 1
    omega

/-! ### Counting -/

lemma runLoop_count (cb : Callback) (opts : Options) (gps : Tags) (dd : Option Tags)
    (total : Nat) :
    ∀ (ts : List String) (idx : Nat) (c : Counters) (w : World),
    (runLoop cb opts gps dd total idx c w ts).1.success_count
        + (runLoop cb opts gps dd total idx c w ts).1.skipped
        + (runLoop cb opts gps dd total idx c w ts).1.failed.length
      = c.success_count + c.skipped + c.failed.length + ts.length := by
  intro ts
  induction ts with
  | nil => intro idx c w; rfl
  | cons t ts ih =>
    intro idx c w
    rw [runLoop, ih]
    cases ho : (processTarget cb opts gps dd total idx w t).1 <;>
      simp [record, ho, List.length_append] <;> omega

lemma shouldSkip_spec (w : World) (p : String) (o : Options) :
    _should_skip_file w p o = (!o.overwrite_gps && targetHasGps w p) := by
  by_cases ho : o.overwrite_gps = true
  · simp [_should_skip_file, ho]
  · have ho' : o.overwrite_gps = false := by
      revert ho; cases o.overwrite_gps <;> simp
    by_cases hh : _is_heic p = true
    · rcases hio : pilImageOpen w p with e | img
      · simp [_should_skip_file, targetHasGps, loadTargetDict, _load_exif_from_heic,
          ho', hh, hio, Bind.bind, Except.bind]
      · rcases hb : img.exifBlob with _ | r
        · simp [_should_skip_file, targetHasGps, loadTargetDict, _load_exif_from_heic,
            ho', hh, hio, hb, Bind.bind, Except.bind]
        · rcases r with e | d <;>
            simp [_should_skip_file, targetHasGps, loadTargetDict, _load_exif_from_heic,
              ho', hh, hio, hb, Bind.bind, Except.bind, Except.map]
    · rcases hl : piexifLoadPath w p with e | d <;>
        simp [_should_skip_file, targetHasGps, loadTargetDict,
          ho', hh, hl, Except.map]

/-! ### The claims -/

/-- C10: the two public entry points `transfer_gps_data_batch` and
`transfer_gps_data` are extensionally equivalent: on every world, source,
target list, options and callback they return equal results and equal
final worlds (their bodies are line-for-line identical in the source). -/
theorem C10_entry_points_equivalent (w : World) (source_path : String)
    (target_paths : List String) (options : Options) (progress_callback : Callback) :
    transfer_gps_data_batch w source_path target_paths options progress_callback
      = transfer_gps_data w source_path target_paths options progress_callback := rfl

/-- C4: the skip predicate returns false whenever `overwrite_gps` is true;
otherwise it returns true iff the target's existing tag mapping (loaded per
its classified format) has a non-empty GPS sub-mapping, every probe failure
resolving to false — as a total Boolean function it never raises. -/
theorem C4_skip_predicate (w : World) (p : String) (o : Options) :
    _should_skip_file w p o = (!o.overwrite_gps && targetHasGps w p) :=
  shouldSkip_spec w p o

/-- C1: for every batch call, once source loading fails (unreadable source,
HEIC support unavailable, or no GPS sub-mapping) the result carries
`success_count = 0`, `skipped = 0` and `failed = []`; once it succeeds,
`success_count + skipped + len(failed) = len(target_paths)`. -/
theorem C1_counter_conservation (w : World) (source_path : String)
    (target_paths : List String) (options : Options) (progress_callback : Callback) :
    if sourceLoadFails w source_path then
      (transfer_gps_data_batch w source_path target_paths options progress_callback).1.success_count = 0
        ∧ (transfer_gps_data_batch w source_path target_paths options progress_callback).1.skipped = 0
        ∧ (transfer_gps_data_batch w source_path target_paths options progress_callback).1.failed = []
    else
      (transfer_gps_data_batch w source_path target_paths options progress_callback).1.success_count
          + (transfer_gps_data_batch w source_path target_paths options progress_callback).1.skipped
          + (transfer_gps_data_batch w source_path target_paths options progress_callback).1.failed.length
        = target_paths.length := by
  by_cases h1 : (_is_heic source_path && !w.heif_supported) = true
  · have hs : sourceLoadFails w source_path = true := by simp [sourceLoadFails, h1]
    rw [if_pos hs]
    simp [transfer_gps_data_batch, h1]
  · have h1' : (_is_heic source_path && !w.heif_supported) = false := by
      revert h1; cases (_is_heic source_path && !w.heif_supported) <;> simp
    rcases hl : loadSource w source_path with e | d
    · have hs : sourceLoadFails w source_path = true := by
        simp [sourceLoadFails, h1', hl]
      rw [if_pos hs]
      simp [transfer_gps_data_batch, h1', hl]
    · by_cases hg : (d.GPS.getD []).isEmpty = true
      · have hs : sourceLoadFails w source_path = true := by
          simp [sourceLoadFails, h1', hl, hg]
        rw [if_pos hs]
        simp [transfer_gps_data_batch, h1', hl, hg]
      · have hg' : (d.GPS.getD []).isEmpty = false := by
          revert hg; cases (d.GPS.getD []).isEmpty <;> simp
        have hs : sourceLoadFails w source_path = false := by
          simp [sourceLoadFails, h1', hl, hg']
        rw [if_neg (by simp [hs])]
        have hcount := runLoop_count progress_callback options (d.GPS.getD [])
          (if options.copy_date then _extract_date_data d else none)
          target_paths.length target_paths 0 {} w
        rcases hc : callCb progress_callback target_paths.length target_paths.length ""
            with e | u <;>
          · simp only [transfer_gps_data_batch, h1', hl, hg', hc, Bool.false_eq_true,
              if_false]
            simpa using hcount

/-- C5: for every final counter state, the message built by the source
(`msg_parts` assembly, overwritten duplicate assignment included) equals
exactly the four-branch policy of the spec, with `attempted = total - skipped`. -/
theorem C5_message_composition (s sk : Nat) (failed : List (String × String)) (total : Nat) :
    buildMessage s sk failed total = messagePolicySpec s sk failed total := by
  simp only [buildMessage, messagePolicySpec]
  by_cases h1 : ((s : Int) = (total : Int) - (sk : Int) ∧ sk = 0)
  · rw [if_pos h1, if_pos h1]
  · rw [if_neg h1, if_neg h1]
    by_cases h2 : s > 0
    · rw [if_pos h2, if_pos h2]
      by_cases h3 : sk > 0 <;> by_cases h4 : failed.length > 0 <;>
        simp [h3, h4, String.append_assoc]
    · rw [if_neg h2, if_neg h2]

/-- C2: whenever the processing of one target raises (the loop body settles
it as a failure outcome `e` — progress emission, skip probe, backup and
writer are all inside the per-target boundary), the loop records exactly
`{file := t, error := e}` at the end of `failed` and continues with the
remaining targets from the resulting world: no exception propagates or
aborts the batch. -/
theorem C2_per_target_isolation (cb : Callback) (opts : Options) (gps : Tags)
    (dd : Option Tags) (total idx : Nat) (c : Counters) (w w₂ : World)
    (t : String) (ts : List String) (e : String)
    (h : processTarget cb opts gps dd total idx w t = (Outcome.fail t e, w₂)) :
    runLoop cb opts gps dd total idx c w (t :: ts)
      = runLoop cb opts gps dd total (idx + 1)
          { c with failed := c.failed ++ [(t, e)] } w₂ ts := by
  rw [runLoop, h]
  rfl

/-! ### Concrete fixtures for witnesses and counterexamples -/

def gpsSample : Tags := [(1, "N"), (2, "10"), (3, "E"), (4, "20")]

def srcDict : ExifDict :=
  { zeroth := some [(306, "2020:01:01 00:00:00")],
    Exif := some [(36867, "2020:01:02 09:00:00"), (36880, "+09:00")],
    GPS := some gpsSample, first := some [], thumbnail := none }

def noGpsDict : ExifDict :=
  { zeroth := some [], Exif := some [], GPS := some [], first := some [], thumbnail := none }

def srcFile : File :=
  { exifLoad := .ok srcDict, imageOpen := .error "cannot identify image file" }

def tgtFile : File :=
  { exifLoad := .ok noGpsDict, imageOpen := .error "cannot identify image file" }

def permFile : File :=
  { exifLoad := .ok noGpsDict, imageOpen := .error "cannot identify image file",
    copyErr := some "Permission denied" }

def wBackupFail : World := { files := [("t.jpg", permFile)] }

/-- C2 witness: a concrete backup failure (permission denied on
`shutil.copy2`) is recorded as that target's failure entry and the loop
moves on. -/
theorem C2_per_target_isolation_witness :
    runLoop none {} [(1, "N")] none 1 0 {} wBackupFail ["t.jpg"]
      = runLoop none {} [(1, "N")] none 1 1
          { success_count := 0, skipped := 0,
            failed := [("t.jpg", "Failed to create backup for t.jpg: Permission denied")] }
          wBackupFail [] :=
  C2_per_target_isolation none {} [(1, "N")] none 1 0 {} wBackupFail wBackupFail
    "t.jpg" [] "Failed to create backup for t.jpg: Permission denied" rfl

/-! ### C8: where callback exceptions land -/

def wTwoTargets : World :=
  { files := [("s.jpg", srcFile), ("a.jpg", tgtFile), ("b.jpg", tgtFile)] }

/-- A progress callback raising on its very first invocation. -/
def cbBoom : Nat → Nat → String → Except String Unit :=
  fun i _ _ => if i = 0 then .error "boom" else .ok ()

/-- C8 counterexample: the claim says a raising progress callback
propagates out of the engine because the per-target boundary covers only
backup and write.  In the source the per-target emission sits inside the
per-target `try`: with a callback raising on target 0 of 2, the engine
returns normally, records the callback error as target 0's failure entry,
and still processes target 1 to success. -/
theorem C8_counterexample :
    (transfer_gps_data_batch wTwoTargets "s.jpg" ["a.jpg", "b.jpg"] {} (some cbBoom)).1
      = { success_count := 1, skipped := 0, failed := [("a.jpg", "boom")],
          message := "Processed 1/2 files (1 failed)" } := by
  rfl

/-- C8 (amended): a progress-callback exception raised during a target's
per-target emission is caught by the per-target boundary — it becomes that
target's `{file, error}` failure record with the world untouched — and the
loop continues with the remaining targets; no callback exception
propagates out of the engine. -/
theorem C8_callback_exception_contained (cb : Callback) (opts : Options) (gps : Tags)
    (dd : Option Tags) (total idx : Nat) (c : Counters) (w : World)
    (t : String) (ts : List String) (e : String)
    (h : callCb cb idx total ("(" ++ basename t ++ ")") = .error e) :
    processTarget cb opts gps dd total idx w t = (Outcome.fail t e, w)
      ∧ runLoop cb opts gps dd total idx c w (t :: ts)
          = runLoop cb opts gps dd total (idx + 1)
              { c with failed := c.failed ++ [(t, e)] } w ts := by
  have h1 : processTarget cb opts gps dd total idx w t = (Outcome.fail t e, w) := by
    unfold processTarget
    rw [h]
  refine ⟨h1, ?_⟩
  rw [runLoop, h1]
  rfl

/-- C8 witness: the contained-callback theorem applied at the concrete
raising callback of the counterexample world. -/
theorem C8_callback_exception_contained_witness :
    processTarget (some cbBoom) {} gpsSample none 2 0 wTwoTargets "a.jpg"
        = (Outcome.fail "a.jpg" "boom", wTwoTargets)
      ∧ runLoop (some cbBoom) {} gpsSample none 2 0 {} wTwoTargets ["a.jpg", "b.jpg"]
          = runLoop (some cbBoom) {} gpsSample none 2 1
              { success_count := 0, skipped := 0, failed := [("a.jpg", "boom")] }
              wTwoTargets ["b.jpg"] :=
  C8_callback_exception_contained (some cbBoom) {} gpsSample none 2 0 {} wTwoTargets
    "a.jpg" ["b.jpg"] "boom" rfl

/-! ### C9: the backup artifact -/

lemma processTarget_backup {cb : Callback} {opts : Options} {gps : Tags} {dd : Option Tags}
    {total idx : Nat} {w : World} {t : String} {f : File}
    (hcbt : callCb cb idx total ("(" ++ basename t ++ ")") = .ok ())
    (hskip : _should_skip_file w t opts = false)
    (hf : getFile w t = some f) (hcp : f.copyErr = none) :
    getFile (processTarget cb opts gps dd total idx w t).2 (t ++ ".backup") = some f := by
  unfold processTarget
  simp only [hcbt, hskip, Bool.false_eq_true, if_false, create_backup_ok_of hf hcp]
  rcases hw : writeTarget (setFile w (t ++ ".backup") f) t gps dd opts with e | bw
  · simp only [hw]
    rw [getFile_setFile]
    simp
  · obtain ⟨b, w3⟩ := bw
    cases b <;> simp only [hw] <;>
      rw [getFile_writeTarget hw (backup_path_ne t), getFile_setFile] <;> simp

lemma runLoop_backup_preserved {cb : Callback} {opts : Options} {gps : Tags}
    {dd : Option Tags} {total : Nat} (as bs : List String) (t : String)
    (idx : Nat) (c : Counters) (w : World) (f : File)
    (hsep : ∀ t' ∈ as ++ bs, t' ≠ t ∧ t' ≠ t ++ ".backup" ∧ t ≠ t' ++ ".backup")
    (hcbt : callCb cb (idx + as.length) total ("(" ++ basename t ++ ")") = .ok ())
    (hf : getFile w t = some f) (hcp : f.copyErr = none)
    (hskip : _should_skip_file w t opts = false) :
    getFile (runLoop cb opts gps dd total idx c w (as ++ t :: bs)).2 (t ++ ".backup")
      = some f := by
  rw [runLoop_append as (t :: bs) idx c w]
  have hpre : getFile (runLoop cb opts gps dd total idx c w as).2 t = getFile w t := by
    apply getFile_runLoop
    intro t' ht'
    have h := hsep t' (List.mem_append_left bs ht')
    exact ⟨Ne.symm h.1, h.2.2⟩
  rw [runLoop]
  set w1 := (runLoop cb opts gps dd total idx c w as).2 with hw1
  have hf1 : getFile w1 t = some f := by rw [hpre, hf]
  have hskip1 : _should_skip_file w1 t opts = false := by
    rw [shouldSkip_congr hpre, hskip]
  have hbk : getFile (processTarget cb opts gps dd total (idx + as.length) w1 t).2
      (t ++ ".backup") = some f :=
    processTarget_backup hcbt hskip1 hf1 hcp
  apply Eq.trans _ hbk
  apply getFile_runLoop
  intro t' ht'
  have h := hsep t' (List.mem_append_right as ht')
  constructor
  · exact fun hc => h.2.1 hc.symm
  · intro hc
    exact h.1 (backup_path_inj hc.symm)

lemma batch_world_cases {w : World} {sp : String} {ts : List String} {opts : Options}
    {cb : Callback} (hsrc : sourceLoadFails w sp = false) :
    ∃ gps dd, (transfer_gps_data_batch w sp ts opts cb).2
      = (runLoop cb opts gps dd ts.length 0 {} w ts).2 := by
  by_cases h1 : (_is_heic sp && !w.heif_supported) = true
  · exfalso
    rw [sourceLoadFails] at hsrc
    rw [h1] at hsrc
    simp at hsrc
  · have h1' : (_is_heic sp && !w.heif_supported) = false := by
      revert h1; cases (_is_heic sp && !w.heif_supported) <;> simp
    rcases hl : loadSource w sp with e | d
    · exfalso
      rw [sourceLoadFails, h1', hl] at hsrc
      simp at hsrc
    · by_cases hg : (d.GPS.getD []).isEmpty = true
      · exfalso
        rw [sourceLoadFails, h1', hl] at hsrc
        simp only [Bool.false_or] at hsrc
        rw [hsrc] at hg
        cases hg
      · have hg' : (d.GPS.getD []).isEmpty = false := by
          revert hg; cases (d.GPS.getD []).isEmpty <;> simp
        refine ⟨d.GPS.getD [], if opts.copy_date then _extract_date_data d else none, ?_⟩
        rcases hc : callCb cb ts.length ts.length "" with e | u <;>
          simp [transfer_gps_data_batch, h1', hl, hg', hc]

/-- C9 counterexample: the claim promises every target reaching the write
step a backup byte-for-byte equal to the target's state immediately before
the batch call.  With the same path listed twice, the second iteration
overwrites the backup with the state left by the first iteration's write:
here `t.jpg` (pre-batch state `tgtFile`, no GPS) is written twice with
`success_count = 2`, and the final backup carries the GPS-bearing
post-first-write state, not `some tgtFile`. -/
theorem C9_counterexample :
    getFile wTwoTargets "a.jpg" = some tgtFile
      ∧ (transfer_gps_data_batch wTwoTargets "s.jpg" ["a.jpg", "a.jpg"] {} none).1.success_count = 2
      ∧ getFile (transfer_gps_data_batch wTwoTargets "s.jpg" ["a.jpg", "a.jpg"] {} none).2
          "a.jpg.backup" ≠ some tgtFile := by
  refine ⟨rfl, rfl, ?_⟩
  decide

/-- C9 (amended): a target `t` that reaches the write step (probe says
don't skip, its per-target emission succeeds, and `shutil.copy2` from it
does not fail) gets its pre-batch contents `f` copied byte-for-byte to
exactly `t ++ ".backup"` before any mutation of `t`, and — provided `t`
occurs once in the batch and no other listed target collides with `t` or
with its backup path — that pre-batch copy is still at `t ++ ".backup"`
when the batch call returns.  (With duplicate or colliding paths the
backup instead reflects the state immediately before `t`'s iteration.) -/
theorem C9_backup_pre_batch_state (w : World) (source_path : String)
    (options : Options) (progress_callback : Callback)
    (as bs : List String) (t : String) (f : File)
    (hsrc : sourceLoadFails w source_path = false)
    (hsep : ∀ t' ∈ as ++ bs, t' ≠ t ∧ t' ≠ t ++ ".backup" ∧ t ≠ t' ++ ".backup")
    (hcbt : callCb progress_callback as.length (as ++ t :: bs).length
        ("(" ++ basename t ++ ")") = .ok ())
    (hf : getFile w t = some f) (hcp : f.copyErr = none)
    (hskip : _should_skip_file w t options = false) :
    getFile (transfer_gps_data_batch w source_path (as ++ t :: bs) options
        progress_callback).2 (t ++ ".backup") = some f := by
  obtain ⟨gps, dd, hworld⟩ := batch_world_cases hsrc
  rw [hworld]
  apply runLoop_backup_preserved as bs t 0 {} w f hsep _ hf hcp hskip
  rw [Nat.zero_add]
  exact hcbt

/-- C9 witness: in a concrete two-target batch with separated paths, the
second target's backup still holds its pre-batch file when the call
returns. -/
theorem C9_backup_pre_batch_state_witness :
    getFile (transfer_gps_data_batch wTwoTargets "s.jpg" (["a.jpg"] ++ "b.jpg" :: [])
        {} none).2 ("b.jpg" ++ ".backup") = some tgtFile :=
  C9_backup_pre_batch_state wTwoTargets "s.jpg" {} none ["a.jpg"] [] "b.jpg" tgtFile
    rfl (by decide) rfl rfl rfl rfl

/-! ### C3: overwrite policy and the writers' re-check -/

lemma foldl_route_GPS : ∀ (dd : Tags) (a : ExifDict),
    (dd.foldl routeDateTag a).GPS = a.GPS
  | [], _ => rfl
  | tv :: rest, a => by
    rw [List.foldl_cons, foldl_route_GPS rest]
    unfold routeDateTag
    by_cases h1 : dateExifTags.contains tv.1 = true
    · rw [if_pos h1]
    · rw [if_neg h1]
      by_cases h2 : tv.1 = 306
      · rw [if_pos h2]
      · rw [if_neg h2]

lemma applyDateStep_GPS (d : ExifDict) (dd : Option Tags) :
    (applyDateStep d dd).GPS = d.GPS := by
  rcases dd with _ | x
  · rfl
  · show (if x.isEmpty = true then d else _apply_date_data d x).GPS = d.GPS
    by_cases hx : x.isEmpty = true
    · rw [if_pos hx]
    · rw [if_neg hx]
      unfold _apply_date_data
      rw [if_neg hx, foldl_route_GPS]

lemma loadTargetDict_ok {w : World} {t : String} {d : ExifDict}
    (h : loadTargetDict w t = .ok d) :
    ∃ f, getFile w t = some f ∧
      (if _is_heic t then f.imageOpen = .ok { exifBlob := some (.ok d) }
       else f.exifLoad = .ok d) := by
  unfold loadTargetDict at h
  by_cases hh : _is_heic t = true
  · rw [if_pos hh] at h
    obtain ⟨f, hf, hio⟩ := load_heic_ok h
    exact ⟨f, hf, by rw [if_pos hh]; exact hio⟩
  · rw [if_neg hh] at h
    obtain ⟨f, hf, he⟩ := piexifLoadPath_ok h
    exact ⟨f, hf, by rw [if_neg hh]; exact he⟩

lemma write_jpeg_skips {w : World} {t : String} {gps : Tags} {dd : Option Tags}
    {o : Options} {d : ExifDict} (hl : piexifLoadPath w t = .ok d)
    (ho : o.overwrite_gps = false) (hgps : (d.GPS.getD []).isEmpty = false) :
    _write_exif_to_jpeg w t gps dd o = .ok (true, w) := by
  unfold _write_exif_to_jpeg
  simp [hl, Bind.bind, Except.bind, ho, hgps, pure, Except.pure]

lemma write_heic_skips {w : World} {t : String} {gps : Tags} {dd : Option Tags}
    {o : Options} {d : ExifDict} {f : File} (hf : getFile w t = some f)
    (hio : f.imageOpen = .ok { exifBlob := some (.ok d) })
    (ho : o.overwrite_gps = false) (hgps : (d.GPS.getD []).isEmpty = false) :
    _write_exif_to_heic w t gps dd o = .ok (true, w) := by
  unfold _write_exif_to_heic pilImageOpen
  simp [hf, hio, Bind.bind, Except.bind, ho, hgps, pure, Except.pure]

lemma write_jpeg_writes (gps : Tags) (dd : Option Tags) {w : World} {t : String}
    {o : Options} {d : ExifDict} {f : File} (hl : piexifLoadPath w t = .ok d)
    (ho : o.overwrite_gps = true) (hpersist : writePersistErr w t = none)
    (hf : getFile w t = some f) :
    _write_exif_to_jpeg w t gps dd o
      = .ok (false, setFile w t
          { f with exifLoad := .ok (applyDateStep { d with GPS := some gps } dd) }) := by
  unfold _write_exif_to_jpeg
  simp [hl, Bind.bind, Except.bind, ho, hpersist, hf, pure, Except.pure]

lemma write_heic_writes (gps : Tags) (dd : Option Tags) {w : World} {t : String}
    {o : Options} {d : ExifDict} {f : File} (hf : getFile w t = some f)
    (hio : f.imageOpen = .ok { exifBlob := some (.ok d) })
    (ho : o.overwrite_gps = true) (hpersist : writePersistErr w t = none) :
    _write_exif_to_heic w t gps dd o
      = .ok (false, setFile w t
          { f with imageOpen := Except.ok { exifBlob := some (.ok (applyDateStep { d with GPS := some gps } dd)) } }) := by
  unfold _write_exif_to_heic pilImageOpen
  simp [hf, hio, Bind.bind, Except.bind, ho, hpersist, pure, Except.pure]

lemma targetHasGps_of_load {w : World} {t : String} {d : ExifDict}
    (hload : loadTargetDict w t = .ok d) (hgps : (d.GPS.getD []).isEmpty = false) :
    targetHasGps w t = true := by
  unfold targetHasGps
  simp only [hload, hgps]
  rfl

/-- C3: for a target whose on-disk tag mapping loads as `d` with a
non-empty GPS sub-mapping (and whose per-target emission, backup copy and
persist step do not fail): the probe skips it iff `overwrite_gps` is
false; with `overwrite_gps = false` the format-specific writer itself
re-checks the policy against the loaded state and signals skipped without
touching the world, and the loop settles the target as skipped; with
`overwrite_gps = true` the loop settles it as a success and the target's
on-disk mapping afterwards carries exactly the source GPS sub-mapping. -/
theorem C3_overwrite_policy (cb : Callback) (opts : Options) (gps : Tags)
    (dd : Option Tags) (total idx : Nat) (w : World) (t : String) (d : ExifDict)
    (hload : loadTargetDict w t = .ok d)
    (hgps : (d.GPS.getD []).isEmpty = false)
    (hcb : callCb cb idx total ("(" ++ basename t ++ ")") = .ok ())
    (hpersist : writePersistErr w t = none)
    (hcopy : copyErrAt w t = none) :
    _should_skip_file w t { opts with overwrite_gps := false } = true
      ∧ _should_skip_file w t { opts with overwrite_gps := true } = false
      ∧ writeTarget w t gps dd { opts with overwrite_gps := false } = .ok (true, w)
      ∧ processTarget cb { opts with overwrite_gps := false } gps dd total idx w t
          = (Outcome.skip, w)
      ∧ ∃ w₂, processTarget cb { opts with overwrite_gps := true } gps dd total idx w t
            = (Outcome.succ, w₂)
          ∧ loadTargetDict w₂ t = .ok (applyDateStep { d with GPS := some gps } dd)
          ∧ (applyDateStep { d with GPS := some gps } dd).GPS = some gps := by
  obtain ⟨f, hf, hfmt⟩ := loadTargetDict_ok hload
  have hhas := targetHasGps_of_load hload hgps
  have hskipF : _should_skip_file w t { opts with overwrite_gps := false } = true := by
    rw [shouldSkip_spec, hhas]
    rfl
  have hskipT : _should_skip_file w t { opts with overwrite_gps := true } = false := by
    rw [shouldSkip_spec]
    rfl
  have hcopyf : f.copyErr = none := by
    unfold copyErrAt at hcopy
    simp only [hf, Option.bind_some] at hcopy
    exact hcopy
  have hwskip : writeTarget w t gps dd { opts with overwrite_gps := false } = .ok (true, w) := by
    unfold writeTarget
    by_cases hh : _is_heic t = true
    · rw [if_pos hh] at hfmt ⊢
      exact write_heic_skips hf hfmt rfl hgps
    · rw [if_neg hh] at hfmt ⊢
      have hl : piexifLoadPath w t = .ok d := by
        unfold piexifLoadPath
        simp only [hf]
        exact hfmt
      exact write_jpeg_skips hl rfl hgps
  refine ⟨hskipF, hskipT, hwskip, ?_, ?_⟩
  · unfold processTarget
    simp only [hcb, hskipF, if_true]
  · -- overwrite enabled: backup then write
    have hbk := create_backup_ok_of hf hcopyf
    set w1 := setFile w (t ++ ".backup") f with hw1
    have hg1 : getFile w1 t = getFile w t := by
      rw [hw1, getFile_setFile, if_neg (Ne.symm (backup_path_ne t))]
    have hf1 : getFile w1 t = some f := by rw [hg1, hf]
    have hp1 : writePersistErr w1 t = none := by
      rw [writePersistErr_congr hg1, hpersist]
    by_cases hh : _is_heic t = true
    · rw [if_pos hh] at hfmt
      have hwrote := write_heic_writes gps dd hf1 hfmt
        (show ({ opts with overwrite_gps := true } : Options).overwrite_gps = true from rfl) hp1
      refine ⟨setFile w1 t
        { f with imageOpen := Except.ok { exifBlob := some (.ok (applyDateStep { d with GPS := some gps } dd)) } },
        ?_, ?_, applyDateStep_GPS _ _⟩
      · unfold processTarget
        simp only [hcb, hskipT, Bool.false_eq_true, if_false, hbk]
        unfold writeTarget
        rw [if_pos hh, hwrote]
      · unfold loadTargetDict
        rw [if_pos hh]
        unfold _load_exif_from_heic pilImageOpen
        rw [getFile_setFile, if_pos rfl]
        rfl
    · rw [if_neg hh] at hfmt
      have hl1 : piexifLoadPath w1 t = .ok d := by
        unfold piexifLoadPath
        simp only [hf1]
        exact hfmt
      have hwrote := write_jpeg_writes gps dd hl1
        (show ({ opts with overwrite_gps := true } : Options).overwrite_gps = true from rfl) hp1 hf1
      refine ⟨setFile w1 t
        { f with exifLoad := .ok (applyDateStep { d with GPS := some gps } dd) },
        ?_, ?_, applyDateStep_GPS _ _⟩
      · unfold processTarget
        simp only [hcb, hskipT, Bool.false_eq_true, if_false, hbk]
        unfold writeTarget
        rw [if_neg hh, hwrote]
      · unfold loadTargetDict
        rw [if_neg hh]
        unfold piexifLoadPath
        rw [getFile_setFile, if_pos rfl]

def gpsTgtFile : File :=
  { exifLoad := .ok srcDict, imageOpen := .error "cannot identify image file" }

def wGpsTarget : World := { files := [("s.jpg", srcFile), ("g.jpg", gpsTgtFile)] }

/-- C3 witness: the overwrite-policy theorem at a concrete GPS-bearing
JPEG target. -/
theorem C3_overwrite_policy_witness :
    _should_skip_file wGpsTarget "g.jpg" { overwrite_gps := false } = true
      ∧ _should_skip_file wGpsTarget "g.jpg" { overwrite_gps := true } = false
      ∧ writeTarget wGpsTarget "g.jpg" gpsSample none { overwrite_gps := false }
          = .ok (true, wGpsTarget)
      ∧ processTarget none { overwrite_gps := false } gpsSample none 1 0 wGpsTarget "g.jpg"
          = (Outcome.skip, wGpsTarget)
      ∧ ∃ w₂, processTarget none { overwrite_gps := true } gpsSample none 1 0 wGpsTarget "g.jpg"
            = (Outcome.succ, w₂)
          ∧ loadTargetDict w₂ "g.jpg"
              = .ok (applyDateStep { srcDict with GPS := some gpsSample } none)
          ∧ (applyDateStep { srcDict with GPS := some gpsSample } none).GPS = some gpsSample :=
  C3_overwrite_policy none {} gpsSample none 1 0 wGpsTarget "g.jpg" srcDict
    rfl rfl rfl rfl rfl

/-! ### C6: the date extractor -/

lemma dictGet_stripEmpty (m : Tags) (t : Nat) :
    dictGet ((if m.isEmpty = true then none else some m).getD []) t = dictGet m t := by
  by_cases h : m.isEmpty = true
  · rw [if_pos h]
    cases m
    · rfl
    · simp at h
  · rw [if_neg h]
    rfl

lemma dictGet_exifChain (ex acc : Tags) (t : Nat) :
    dictGet (addIfPresent ex 36882 (addIfPresent ex 36881 (addIfPresent ex 36880
      (addIfPresent ex 36868 (addIfPresent ex 36867 acc))))) t
    = if dateExifTags.contains t = true ∧ (dictGet ex t).isSome = true then dictGet ex t
      else dictGet acc t := by
  simp only [dictGet_addIfPresent]
  by_cases h82 : t = 36882
  · subst h82
    rcases hg : dictGet ex 36882 with _ | v <;> simp [dateExifTags, hg]
  · by_cases h81 : t = 36881
    · subst h81
      rcases hg : dictGet ex 36881 with _ | v <;> simp [dateExifTags, hg]
    · by_cases h80 : t = 36880
      · subst h80
        rcases hg : dictGet ex 36880 with _ | v <;> simp [dateExifTags, hg]
      · by_cases h68 : t = 36868
        · subst h68
          rcases hg : dictGet ex 36868 with _ | v <;> simp [dateExifTags, hg]
        · by_cases h67 : t = 36867
          · subst h67
            rcases hg : dictGet ex 36867 with _ | v <;> simp [dateExifTags, hg]
          · simp [dateExifTags, h82, h81, h80, h68, h67]

lemma extract_get (d : ExifDict) (t : Nat) :
    dictGet ((_extract_date_data d).getD []) t
      = if dateTagSlots.contains t = true then slotVal d t else none := by
  rcases hE : d.Exif with _ | ex <;> rcases hZ : d.zeroth with _ | z
  · simp [_extract_date_data, hE, hZ, slotVal, dictGet]
  · unfold _extract_date_data
    simp only [hE, hZ]
    rw [dictGet_stripEmpty, dictGet_addIfPresent]
    by_cases h306 : t = 306
    · subst h306
      rcases hg : dictGet z 306 with _ | v <;> simp [dateTagSlots, slotVal, hE, hZ, hg, dictGet]
    · simp [dateTagSlots, slotVal, hE, hZ, h306, dictGet]
  · unfold _extract_date_data
    simp only [hE, hZ]
    rw [dictGet_stripEmpty, dictGet_exifChain]
    by_cases h306 : t = 306
    · subst h306
      simp [dateTagSlots, dateExifTags, slotVal, hE, hZ, dictGet]
    · by_cases hc : dateExifTags.contains t = true
      · have hm : t ∈ dateExifTags := by simpa using hc
        have hm' : t ∈ dateTagSlots := by
          revert hm
          simp [dateExifTags, dateTagSlots]
          tauto
        rcases hg : dictGet ex t with _ | v <;>
          simp [hm, hm', slotVal, hE, hZ, h306, hg, dictGet]
      · have hm : t ∉ dateExifTags := by simpa using hc
        have hm' : t ∉ dateTagSlots := by
          revert hm h306
          simp [dateExifTags, dateTagSlots]
          tauto
        simp [hm, hm', dictGet]
  · unfold _extract_date_data
    simp only [hE, hZ]
    rw [dictGet_stripEmpty, dictGet_addIfPresent, dictGet_exifChain]
    by_cases h306 : t = 306
    · subst h306
      rcases hg : dictGet z 306 with _ | v <;>
        simp [dateTagSlots, dateExifTags, slotVal, hE, hZ, hg, dictGet]
    · by_cases hc : dateExifTags.contains t = true
      · have hm : t ∈ dateExifTags := by simpa using hc
        have hm' : t ∈ dateTagSlots := by
          revert hm
          simp [dateExifTags, dateTagSlots]
          tauto
        rcases hg : dictGet ex t with _ | v <;>
          simp [hm, hm', slotVal, hE, hZ, h306, hg, dictGet]
      · have hm : t ∉ dateExifTags := by simpa using hc
        have hm' : t ∉ dateTagSlots := by
          revert hm h306
          simp [dateExifTags, dateTagSlots]
          tauto
        simp [hm, hm', h306, dictGet]

lemma mem_stripEmpty {m : Tags} {p : Nat × String}
    (h : p ∈ (if m.isEmpty = true then none else some m).getD []) : p ∈ m := by
  by_cases he : m.isEmpty = true
  · rw [if_pos he] at h
    simp at h
  · rw [if_neg he] at h
    exact h

lemma mem_exifChain {ex acc : Tags} {p : Nat × String}
    (h : p ∈ addIfPresent ex 36882 (addIfPresent ex 36881 (addIfPresent ex 36880
      (addIfPresent ex 36868 (addIfPresent ex 36867 acc))))) :
    p.1 = 36882 ∨ p.1 = 36881 ∨ p.1 = 36880 ∨ p.1 = 36868 ∨ p.1 = 36867 ∨ p ∈ acc := by
  rcases mem_addIfPresent h with h1 | h1
  · tauto
  rcases mem_addIfPresent h1 with h2 | h2
  · tauto
  rcases mem_addIfPresent h2 with h3 | h3
  · tauto
  rcases mem_addIfPresent h3 with h4 | h4
  · tauto
  rcases mem_addIfPresent h4 with h5 | h5
  · tauto
  tauto

lemma extract_mem {d : ExifDict} {p : Nat × String}
    (h : p ∈ (_extract_date_data d).getD []) : dateTagSlots.contains p.1 = true := by
  have hend : p.1 = 306 ∨ p.1 = 36882 ∨ p.1 = 36881 ∨ p.1 = 36880
      ∨ p.1 = 36868 ∨ p.1 = 36867 := by
    rcases hE : d.Exif with _ | ex <;> rcases hZ : d.zeroth with _ | z
    · unfold _extract_date_data at h
      simp only [hE, hZ] at h
      exact absurd (mem_stripEmpty h) (by simp)
    · unfold _extract_date_data at h
      simp only [hE, hZ] at h
      rcases mem_addIfPresent (mem_stripEmpty h) with h1 | h1
      · tauto
      · exact absurd h1 (by simp)
    · unfold _extract_date_data at h
      simp only [hE, hZ] at h
      rcases mem_exifChain (mem_stripEmpty h) with h1 | h1 | h1 | h1 | h1 | h1 <;>
        first
        | tauto
        | exact absurd h1 (by simp)
    · unfold _extract_date_data at h
      simp only [hE, hZ] at h
      rcases mem_addIfPresent (mem_stripEmpty h) with h1 | h1
      · tauto
      · rcases mem_exifChain h1 with h2 | h2 | h2 | h2 | h2 | h2 <;>
          first
          | tauto
          | exact absurd h2 (by simp)
  rcases hend with h1 | h1 | h1 | h1 | h1 | h1 <;> simp [dateTagSlots, h1]

lemma extract_nodup (d : ExifDict) :
    (((_extract_date_data d).getD []).map Prod.fst).Nodup := by
  have hstrip : ∀ m : Tags, (m.map Prod.fst).Nodup →
      (((if m.isEmpty = true then none else some m).getD []).map Prod.fst).Nodup := by
    intro m hm
    by_cases he : m.isEmpty = true
    · rw [if_pos he]
      simp
    · rw [if_neg he]
      exact hm
  rcases hE : d.Exif with _ | ex <;> rcases hZ : d.zeroth with _ | z <;>
    · unfold _extract_date_data
      simp only [hE, hZ]
      apply hstrip
      repeat' apply keys_nodup_addIfPresent
      simp

lemma extract_ne_some_nil (d : ExifDict) : _extract_date_data d ≠ some [] := by
  have hstrip : ∀ m : Tags, (if m.isEmpty = true then none else some m) ≠ some [] := by
    intro m
    by_cases he : m.isEmpty = true
    · rw [if_pos he]
      simp
    · rw [if_neg he]
      intro hc
      rw [Option.some_inj] at hc
      rw [hc] at he
      simp at he
  rcases hE : d.Exif with _ | ex <;> rcases hZ : d.zeroth with _ | z <;>
    · unfold _extract_date_data
      simp only [hE, hZ]
      apply hstrip

/-- The source mapping carrying all six date tag slots of the extractor. -/
def fullDateSrc : ExifDict :=
  { zeroth := some [(306, "2021:03:04 05:06:07")],
    Exif := some [(36867, "2021:03:04 01:02:03"), (36868, "2021:03:04 01:02:04"),
      (36880, "+01:00"), (36881, "+02:00"), (36882, "+03:00")],
    GPS := some [], first := some [], thumbnail := none }

/-- C6 counterexample: the claim (like §3 of the spec) calls the
extractor's slot set a "fixed 5-tag-slot set", but the enumerated set —
original-capture timestamp, digitized timestamp, primary-image timestamp
and three UTC offsets — has six slots, and the code reads six tags: on a
source carrying all of them the extracted mapping has six entries, not at
most five. -/
theorem C6_counterexample :
    ((_extract_date_data fullDateSrc).getD []).length = 6
      ∧ ¬ ((_extract_date_data fullDateSrc).getD []).length ≤ 5 := by
  decide

/-- C6 (amended): the date extractor reads exactly the fixed six-tag-slot
set of the data model (tags 36867, 36868, 36880, 36881, 36882 from the
capture-detail group and 306 from the primary-image group) and no other
tags, carries only (and verbatim) the tags actually present on the source,
and returns absent — never an empty mapping — when zero of those tags are
found. -/
theorem C6_date_extraction (d : ExifDict) :
    (∀ t : Nat, dictGet ((_extract_date_data d).getD []) t
        = if dateTagSlots.contains t = true then slotVal d t else none)
      ∧ (_extract_date_data d = none
          ↔ dateTagSlots.all (fun t => (slotVal d t).isNone) = true)
      ∧ _extract_date_data d ≠ some [] := by
  refine ⟨extract_get d, ?_, extract_ne_some_nil d⟩
  constructor
  · intro hnone
    rw [List.all_eq_true]
    intro t ht
    have hg := extract_get d t
    rw [hnone] at hg
    simp only [Option.getD_none, dictGet] at hg
    rw [if_pos (by simpa using ht)] at hg
    rw [← hg]
    rfl
  · intro hall
    rcases hm : _extract_date_data d with _ | m
    · rfl
    · exfalso
      have hmne : m ≠ [] := by
        intro hc
        rw [hc] at hm
        exact extract_ne_some_nil d hm
      rcases List.exists_mem_of_ne_nil m hmne with ⟨p, hp⟩
      have hp' : p ∈ (_extract_date_data d).getD [] := by
        rw [hm]
        exact hp
      have hcont := extract_mem hp'
      have hsome : (dictGet ((_extract_date_data d).getD []) p.1).isSome = true := by
        have := dictGet_isSome_of_mem hp'
        exact this
      rw [extract_get d p.1, if_pos hcont] at hsome
      rw [List.all_eq_true] at hall
      have hnone := hall p.1 (by simpa [dateTagSlots] using (by
        revert hcont
        simp [dateTagSlots] : p.1 = 36867 ∨ p.1 = 36868 ∨ p.1 = 36880 ∨ p.1 = 36881
          ∨ p.1 = 36882 ∨ p.1 = 306))
      rw [Option.isNone_iff_eq_none] at hnone
      simp [hnone] at hsome

/-- C6 witness: the six-slot extraction theorem evaluated at the full
source (slot 36881 carried verbatim) and at a dateless source (absent
result). -/
theorem C6_date_extraction_witness :
    dictGet ((_extract_date_data fullDateSrc).getD []) 36881 = some "+02:00"
      ∧ _extract_date_data noGpsDict = none := by
  have h1 := C6_date_extraction fullDateSrc
  have h2 := C6_date_extraction noGpsDict
  constructor
  · rw [h1.1 36881]
    decide
  · rw [h2.2.1]
    decide

/-! ### C7: the date applier -/

lemma foldl_route_first : ∀ (dd : Tags) (a : ExifDict),
    (dd.foldl routeDateTag a).first = a.first
  | [], _ => rfl
  | tv :: rest, a => by
    rw [List.foldl_cons, foldl_route_first rest]
    unfold routeDateTag
    by_cases h1 : dateExifTags.contains tv.1 = true
    · rw [if_pos h1]
    · rw [if_neg h1]
      by_cases h2 : tv.1 = 306
      · rw [if_pos h2]
      · rw [if_neg h2]

lemma foldl_route_thumbnail : ∀ (dd : Tags) (a : ExifDict),
    (dd.foldl routeDateTag a).thumbnail = a.thumbnail
  | [], _ => rfl
  | tv :: rest, a => by
    rw [List.foldl_cons, foldl_route_thumbnail rest]
    unfold routeDateTag
    by_cases h1 : dateExifTags.contains tv.1 = true
    · rw [if_pos h1]
    · rw [if_neg h1]
      by_cases h2 : tv.1 = 306
      · rw [if_pos h2]
      · rw [if_neg h2]

lemma slots_cases {k : Nat} (h : dateTagSlots.contains k = true) :
    dateExifTags.contains k = true ∨ k = 306 := by
  revert h
  simp [dateTagSlots, dateExifTags]
  tauto

lemma exif_tag_ne_306 {k : Nat} (h : dateExifTags.contains k = true) : k ≠ 306 := by
  intro hc
  subst hc
  revert h
  decide

lemma foldl_route_spec : ∀ (dd : Tags) (a : ExifDict),
    (∀ p ∈ dd, dateTagSlots.contains p.1 = true) →
    (dd.map Prod.fst).Nodup →
    a.Exif.isSome = true → a.zeroth.isSome = true →
    (dd.foldl routeDateTag a).Exif.isSome = true
      ∧ (dd.foldl routeDateTag a).zeroth.isSome = true
      ∧ (∀ t, dictGet ((dd.foldl routeDateTag a).Exif.getD []) t
          = if dateExifTags.contains t = true ∧ (dictGet dd t).isSome = true then dictGet dd t
            else dictGet (a.Exif.getD []) t)
      ∧ (∀ t, dictGet ((dd.foldl routeDateTag a).zeroth.getD []) t
          = if t = 306 ∧ (dictGet dd t).isSome = true then dictGet dd t
            else dictGet (a.zeroth.getD []) t)
  | [], a, _, _, hE, hZ => by
    refine ⟨hE, hZ, ?_, ?_⟩ <;> intro t <;> simp [dictGet]
  | (k, v) :: rest, a, hsl, hnd, hE, hZ => by
    have hk := hsl (k, v) (List.mem_cons_self _ _)
    simp only [List.map_cons, List.nodup_cons] at hnd
    have hgrest : dictGet rest k = none := dictGet_eq_none_of_not_mem_keys hnd.1
    have hslrest : ∀ p ∈ rest, dateTagSlots.contains p.1 = true :=
      fun p hp => hsl p (List.mem_cons_of_mem _ hp)
    rw [List.foldl_cons]
    rcases slots_cases hk with hkE | hk306
    · have hkne := exif_tag_ne_306 hkE
      have hroute : routeDateTag a (k, v)
          = { a with Exif := some (dictSet (a.Exif.getD []) k v) } := by
        unfold routeDateTag
        rw [if_pos hkE]
      rw [hroute]
      obtain ⟨ihE, ihZ, ihe, ihz⟩ :=
        foldl_route_spec rest { a with Exif := some (dictSet (a.Exif.getD []) k v) }
          hslrest hnd.2 (by simp) hZ
      refine ⟨ihE, ihZ, ?_, ?_⟩
      · intro t
        rw [ihe t]
        by_cases ht : t = k
        · subst ht
          have hmem : t ∈ dateExifTags := by simpa using hkE
          simp [dictGet, hgrest, hmem, dictGet_dictSet]
        · simp [dictGet, ht, dictGet_dictSet]
      · intro t
        rw [ihz t]
        by_cases ht : t = 306
        · subst ht
          simp [dictGet, Ne.symm hkne]
        · simp [ht]
    · subst hk306
      have hnm : 306 ∉ dateExifTags := by decide
      have hroute : routeDateTag a (306, v)
          = { a with zeroth := some (dictSet (a.zeroth.getD []) 306 v) } := by
        unfold routeDateTag
        rw [if_neg (by simp [dateExifTags]), if_pos rfl]
      rw [hroute]
      obtain ⟨ihE, ihZ, ihe, ihz⟩ :=
        foldl_route_spec rest { a with zeroth := some (dictSet (a.zeroth.getD []) 306 v) }
          hslrest hnd.2 hE (by simp)
      refine ⟨ihE, ihZ, ?_, ?_⟩
      · intro t
        rw [ihe t]
        by_cases ht : t = 306
        · subst ht
          simp [dictGet, hnm, hgrest]
        · simp [dictGet, ht]
      · intro t
        rw [ihz t]
        by_cases ht : t = 306
        · subst ht
          simp [dictGet, hgrest, dictGet_dictSet]
        · simp [dictGet, ht, dictGet_dictSet]

lemma isEmpty_false_of_ne_nil {dd : Tags} (h : dd ≠ []) : dd.isEmpty = false := by
  cases dd
  · exact absurd rfl h
  · rfl

lemma apply_date_spec (tgt : ExifDict) (dd : Tags)
    (hsl : ∀ p ∈ dd, dateTagSlots.contains p.1 = true)
    (hnd : (dd.map Prod.fst).Nodup) (hne : dd ≠ []) :
    (_apply_date_data tgt dd).GPS = tgt.GPS
      ∧ (_apply_date_data tgt dd).first = tgt.first
      ∧ (_apply_date_data tgt dd).thumbnail = tgt.thumbnail
      ∧ (_apply_date_data tgt dd).Exif.isSome = true
      ∧ (_apply_date_data tgt dd).zeroth.isSome = true
      ∧ (∀ t, dictGet ((_apply_date_data tgt dd).Exif.getD []) t
          = if dateExifTags.contains t = true ∧ (dictGet dd t).isSome = true then dictGet dd t
            else dictGet (tgt.Exif.getD []) t)
      ∧ (∀ t, dictGet ((_apply_date_data tgt dd).zeroth.getD []) t
          = if t = 306 ∧ (dictGet dd t).isSome = true then dictGet dd t
            else dictGet (tgt.zeroth.getD []) t) := by
  have hie := isEmpty_false_of_ne_nil hne
  unfold _apply_date_data
  rw [hie]
  simp only [Bool.false_eq_true, if_false]
  obtain ⟨ihE, ihZ, ihe, ihz⟩ :=
    foldl_route_spec dd
      { { tgt with Exif := some (tgt.Exif.getD []) } with
          zeroth := some ({ tgt with Exif := some (tgt.Exif.getD []) }.zeroth.getD []) }
      hsl hnd (by simp) (by simp)
  exact ⟨foldl_route_GPS dd _, foldl_route_first dd _, foldl_route_thumbnail dd _,
    ihE, ihZ, ihe, ihz⟩

/-- C7: applying an extracted date sub-mapping `dd` to a target mapping
copies exactly the tags present in `dd`, verbatim, into their correct
destination groups — `Exif`-IFD slots into the capture-detail group, slot
306 into the primary-image group, both groups created when absent — while
leaving every other tag of both groups and the whole GPS, thumbnail-IFD
and thumbnail fields unchanged; applying an absent sub-mapping is a
no-op. -/
theorem C7_date_application (src tgt : ExifDict) (dd : Tags)
    (hdd : _extract_date_data src = some dd) :
    (_apply_date_data tgt dd).GPS = tgt.GPS
      ∧ (_apply_date_data tgt dd).first = tgt.first
      ∧ (_apply_date_data tgt dd).thumbnail = tgt.thumbnail
      ∧ (_apply_date_data tgt dd).Exif.isSome = true
      ∧ (_apply_date_data tgt dd).zeroth.isSome = true
      ∧ (∀ t, dictGet ((_apply_date_data tgt dd).Exif.getD []) t
          = if dateExifTags.contains t = true ∧ (dictGet dd t).isSome = true then dictGet dd t
            else dictGet (tgt.Exif.getD []) t)
      ∧ (∀ t, dictGet ((_apply_date_data tgt dd).zeroth.getD []) t
          = if t = 306 ∧ (dictGet dd t).isSome = true then dictGet dd t
            else dictGet (tgt.zeroth.getD []) t)
      ∧ applyDateStep tgt none = tgt := by
  have hdd' : (_extract_date_data src).getD [] = dd := by rw [hdd]; rfl
  have hsl : ∀ p ∈ dd, dateTagSlots.contains p.1 = true := by
    intro p hp
    exact extract_mem (by rw [hdd']; exact hp)
  have hnd : (dd.map Prod.fst).Nodup := by
    rw [← hdd']
    exact extract_nodup src
  have hne : dd ≠ [] := by
    intro hc
    rw [hc] at hdd
    exact extract_ne_some_nil src hdd
  obtain ⟨h1, h2, h3, h4, h5, h6, h7⟩ := apply_date_spec tgt dd hsl hnd hne
  exact ⟨h1, h2, h3, h4, h5, h6, h7, rfl⟩

/-- C7 witness: applying the concrete extraction of `srcDict` (slots
36867, 36880 and 306) to the GPS-less target copies those three tags
verbatim into the right groups and leaves the GPS group unchanged. -/
theorem C7_date_application_witness :
    (_apply_date_data noGpsDict
        [(36867, "2020:01:02 09:00:00"), (36880, "+09:00"), (306, "2020:01:01 00:00:00")]).GPS
        = noGpsDict.GPS
      ∧ dictGet ((_apply_date_data noGpsDict
          [(36867, "2020:01:02 09:00:00"), (36880, "+09:00"),
            (306, "2020:01:01 00:00:00")]).Exif.getD []) 36867 = some "2020:01:02 09:00:00"
      ∧ dictGet ((_apply_date_data noGpsDict
          [(36867, "2020:01:02 09:00:00"), (36880, "+09:00"),
            (306, "2020:01:01 00:00:00")]).zeroth.getD []) 306
          = some "2020:01:01 00:00:00" := by
  have h := C7_date_application srcDict noGpsDict
    [(36867, "2020:01:02 09:00:00"), (36880, "+09:00"), (306, "2020:01:01 00:00:00")] rfl
  refine ⟨h.1, ?_, ?_⟩
  · rw [h.2.2.2.2.2.1 36867]
    decide
  · rw [h.2.2.2.2.2.2.1 306]
    decide

end ExifClone
